import Mathlib

/-!
Verification of the LFS (log-structured file system) storage engine of an
xv6-derived kernel, shallowly embedded from the C sources (src/fs.c, src/fs.h,
src/param.h, src/mkfs.c).  Machine integers (C `uint`) are modelled as `Nat`
with an explicit `% 2^32` wherever 32-bit wraparound can actually occur; where
the surrounding checks make overflow impossible the plain `Nat` operation is
used and the fact is noted next to the definition.
-/

/-! ## Compile-time constants (src/fs.h, src/param.h) -/

/-- BSIZE (fs.h:5): block size in bytes. -/
def BSIZE : Nat := 1024

/-- NDIRECT (fs.h:112). -/
def NDIRECT : Nat := 12

/-- NINDIRECT (fs.h:113): BSIZE / sizeof(uint). -/
def NINDIRECT : Nat := BSIZE / 4

/-- MAXFILE (fs.h:114). -/
def MAXFILE : Nat := NDIRECT + NINDIRECT

/-- SSB_ENTRIES_PER_BLOCK (fs.h:49): (BSIZE - 5*4) / 16 = 62. -/
def SSB_ENTRIES_PER_BLOCK : Nat := (BSIZE - 5 * 4) / 16

/-- SUT_FREE_MARKER (fs.c:32): 0xFFFFFFFF marks a free segment in the SUT. -/
def SUT_FREE_MARKER : Nat := 4294967295

/-- LFS_NINODES (param.h:16). -/
def LFS_NINODES : Nat := 200

/-- LFS_NSEGS_MAX (fs.h:30). -/
def LFS_NSEGS_MAX : Nat := 1000

/-- GC_TARGET_SEGS (param.h:22). -/
def GC_TARGET_SEGS : Nat := 8

/-- 2^32, the modulus of the C `uint` type. -/
def U32 : Nat := 4294967296

/-- The imap placeholder 0xFFFFFFFF ("reserved, in dirty buffer", fs.c:2211). -/
def IMAP_PLACEHOLDER : Nat := 4294967295

/-! ## Superblock (fs.h:14-23)

The superblock is read from disk at `iinit` (fs.c:2170); its fields are runtime
values for fs.c, so the embedding is parameterized by them.  The mkfs tool
(mkfs.c:94-101) produces size = FSSIZE = 20000, segsize = LFS_SEGSIZE = 32,
segstart = LFS_SEGSTART = 4, nsegs = (20000-4)/32 = 624. -/

structure SB where
  size : Nat
  nsegs : Nat
  segsize : Nat
  segstart : Nat
deriving Repr, DecidableEq

/-- The superblock written by mkfs for the shipped parameters (mkfs.c:94-101,
param.h:13-18). -/
def sbDisk : SB := { size := 20000, nsegs := 624, segsize := 32, segstart := 4 }

/-! ## Imap entry encoding (fs.h:100-110)

C: `IMAP_ENCODE(block, version, slot) =
      (block << 12) | ((version & 0xFF) << 4) | (slot & 0xF)`.
The three OR-ed fields occupy disjoint bit ranges (bits 12.., bits 4-11,
bits 0-3), so the bitwise ORs coincide with addition and the shifts with
multiplication/division by powers of two; the embedding uses the arithmetic
form. -/

def IMAP_ENCODE (block version slot : Nat) : Nat :=
  block * 4096 + (version % 256) * 16 + slot % 16

/-- C: `(entry) >> 12` (fs.h:108). -/
def IMAP_BLOCK (entry : Nat) : Nat := entry / 4096

/-- C: `((entry) >> 4) & 0xFF` (fs.h:109). -/
def IMAP_VERSION (entry : Nat) : Nat := entry / 16 % 256

/-- C: `(entry) & 0xF` (fs.h:110). -/
def IMAP_SLOT (entry : Nat) : Nat := entry % 16

/-! ## Checkpoint (fs.h:73-92, fs.c:137-200)

`struct checkpoint`: first word `timestamp` (header), metadata, padding, last
word `timestamp_end` (footer).  fs.h:68-69 documents: "Header and footer
timestamps must match for valid checkpoint". -/

structure Checkpoint where
  timestamp : Nat
  log_tail : Nat
  cur_seg : Nat
  seg_offset : Nat
  imap_addrs : List Nat
  imap_nblocks : Nat
  sut_addrs : List Nat
  sut_nblocks : Nat
  valid : Nat
  timestamp_end : Nat
deriving Repr, DecidableEq

/-- `lfs_write_checkpoint` (fs.c:179-200): the update applied to the in-memory
checkpoint before it is written to block `sb.checkpoint0`.  The C code
increments `lfs.cp.timestamp` (a `uint`, hence mod 2^32), refreshes the
log-tail fields and sets `valid = 1`.  No other field of the record is
touched; in particular `timestamp_end` is never assigned anywhere in fs.c. -/
def lfs_write_checkpoint (sb : SB) (cp : Checkpoint) (log_tail : Nat) : Checkpoint :=
  { cp with
    timestamp := (cp.timestamp + 1) % U32,
    log_tail := log_tail,
    cur_seg := (log_tail - sb.segstart) / sb.segsize,
    seg_offset := (log_tail - sb.segstart) % sb.segsize,
    valid := 1 }

/-- `lfs_read_checkpoint` (fs.c:137-156): the recovery decision.  Returns the
`log_tail` adopted by the engine together with whether the on-disk checkpoint
was accepted.  The C code accepts the checkpoint iff `cp.valid != 0`; it never
compares `timestamp` with `timestamp_end`. -/
def lfs_read_checkpoint (sb : SB) (cp : Checkpoint) : Nat × Bool :=
  if cp.valid = 0 then (sb.segstart, false) else (cp.log_tail, true)

/-- Modelled from the spec: "Valid iff `header_timestamp == footer_timestamp`
and `valid != 0`" (spec section 3; also fs.h:68-69).  This is the validity
predicate the specification describes, written down for comparison with
`lfs_read_checkpoint` above. -/
def checkpoint_valid_spec (cp : Checkpoint) : Bool :=
  decide (cp.timestamp = cp.timestamp_end) && decide (cp.valid ≠ 0)

/-- An all-zero checkpoint record (the state of checkpoint memory before any
field is assigned; the mkfs tool zero-initializes the record, mkfs.c:23). -/
def cpZero : Checkpoint :=
  { timestamp := 0, log_tail := 0, cur_seg := 0, seg_offset := 0,
    imap_addrs := [], imap_nblocks := 0, sut_addrs := [], sut_nblocks := 0,
    valid := 0, timestamp_end := 0 }

/-- A torn checkpoint: header and footer timestamps disagree but `valid = 1`. -/
def cpTorn : Checkpoint :=
  { cpZero with timestamp := 5, timestamp_end := 3, valid := 1, log_tail := 77 }

/-! ## SSB entries and the checksum (fs.h:38-43, fs.c:283-299, fs.c:494-515)

`struct ssb_entry { uchar type; uint inum; uint offset; uint version; }` has
size 16 with layout: byte 0 = `type`, bytes 1-3 = padding, bytes 4-7 = `inum`,
bytes 8-11 = `offset`, bytes 12-15 = `version` (confirmed by the source's own
count `(BSIZE - 20)/16 = 62`, fs.h:48).  In this program the padding bytes are
always zero: `lfs` lives in zeroed BSS, entries are assigned field by field
into it, and every SSB block buffer is `memset` to zero before entries are
copied in.  Hence the 32-bit word at byte offset 0 of an entry equals the
`type` value. -/

structure SSBEntry where
  type : Nat
  inum : Nat
  offset : Nat
  version : Nat
deriving Repr, DecidableEq

/-- SSB_TYPE_DATA (fs.h:33). -/
def SSB_TYPE_DATA : Nat := 1
/-- SSB_TYPE_INODE (fs.h:34). -/
def SSB_TYPE_INODE : Nat := 2
/-- SSB_TYPE_INDIRECT (fs.h:35). -/
def SSB_TYPE_INDIRECT : Nat := 3

/-- `gc_compute_checksum` (fs.c:494-507).  For each entry the C code reinterprets
the entry as a `uint` array `p` and folds `checksum ^= p[0] ^ p[1] ^ p[2]`.
By the layout above `p[0]` is the word holding `type` (with zero padding),
`p[1]` is `inum` and `p[2]` is `offset`; the `version` word `p[3]` is not
included. -/
def gc_compute_checksum (entries : List SSBEntry) : Nat :=
  entries.foldl (fun acc e => acc ^^^ (e.type ^^^ e.inum ^^^ e.offset)) 0

/-- `gc_verify_checksum` (fs.c:509-515): recompute over the stored entries and
compare with the stored checksum. -/
def gc_verify_checksum (checksum : Nat) (entries : List SSBEntry) : Bool :=
  decide (gc_compute_checksum entries = checksum)

/-- Modelled from the spec: "The checksum is a simple XOR over the
`{inum, offset, version}` triples" (spec section 3; also the source's own
comment at fs.c:504, "XOR inum, offset, version").  Written down for
comparison with `gc_compute_checksum` above. -/
def ssb_checksum_spec (entries : List SSBEntry) : Nat :=
  entries.foldl (fun acc e => acc ^^^ (e.inum ^^^ e.offset ^^^ e.version)) 0

/-! ## Engine state and the log allocator (fs.c:50-79, fs.c:1831-2050)

The fields of the global `lfs` struct that the allocator, the SSB buffer and
the cleaner manipulate.  `ssb_buf` is kept as a list (its length is the C
`ssb_count`); `free_segs` is the free-segment ring in pop order (head first);
`sut_live` is the `live_bytes` column of the SUT, indexed by segment. -/

structure LfsSt where
  log_tail : Nat
  cur_seg_end : Nat
  syncing : Bool
  ssb_flushing : Bool
  ssb_buf : List SSBEntry
  ssb_pend : List SSBEntry
  ssb_pending_block : Nat
  reserved_ssb : Nat
  free_segs : List Nat
  sut_live : List Nat
  imap : List Nat
  gc_failed : Bool
deriving Repr, DecidableEq

/-- The reserved-window skip loop of `lfs_alloc_with_ssb` (fs.c:1901-1912):
while the log tail is not at a segment boundary, and fewer than 3 blocks
remain in its segment, and the tail is still inside the allocation region,
advance it by one block.  The C loop runs at most twice (the offset can only
be segsize-2 or segsize-1 while it iterates); it is embedded with explicit
fuel and always called with fuel = segsize, which is ample. -/
def skipReserved (sb : SB) : Nat → Nat → Nat → Nat
  | 0, t, _ => t
  | fuel + 1, t, e =>
    if (t - sb.segstart) % sb.segsize = 0 then t
    else if 2 < sb.segsize - (t - sb.segstart) % sb.segsize then t
    else if e ≤ t then t
    else skipReserved sb fuel (t + 1) e

/-- The tail of `lfs_alloc_with_ssb` at label `alloc_block` (fs.c:2018-2043):
take the block at the log tail, advance the tail, panic (None) if the block is
out of range, and, when `ssb_type != 0` and the SSB buffer is not full, append
one entry carrying exactly the call's arguments. -/
def allocFinish (sb : SB) (st : LfsSt) (ty inum off ver : Nat) : Option (Nat × LfsSt) :=
  let b := st.log_tail
  if sb.size ≤ b then none
  else
    let st1 := { st with log_tail := b + 1 }
    let st2 := if ty ≠ 0 ∧ st1.ssb_buf.length < SSB_ENTRIES_PER_BLOCK then
        { st1 with ssb_buf := st1.ssb_buf ++ [⟨ty, inum, off, ver⟩] } else st1
    some (b, st2)

/-- Switching the allocator to segment `f` (fs.c:1974-1989 and the analogous
blocks at fs.c:254-262, 337-344, 705-712): the log tail moves to the start of
`f`, the region end to its end, and `sut[f].live_bytes` is reset to 0. -/
def switchToSeg (sb : SB) (st : LfsSt) (f : Nat) : LfsSt :=
  { st with
    log_tail := sb.segstart + f * sb.segsize,
    cur_seg_end := sb.segstart + f * sb.segsize + sb.segsize,
    sut_live := st.sut_live.set f 0 }

/-- The `use_free_segment` path of `lfs_alloc_with_ssb` (fs.c:1958-2016).
With a non-empty ring: pop, panic (None) on an invalid index or boundaries,
switch, allocate.  With an empty ring the C code runs an emergency GC and, if
that freed a segment, switches to it; the emergency result is supplied by the
`gcs` oracle (None when the emergency GC also finds nothing, in which case the
C code panics "out of disk space"). -/
def useFreeSegment (sb : SB) (gcs : Option Nat) (st : LfsSt) (ty i o v : Nat) :
    Option (Nat × LfsSt) :=
  match st.free_segs with
  | f :: rest =>
    if sb.nsegs ≤ f then none
    else
      let st1 := switchToSeg sb { st with free_segs := rest } f
      if sb.size ≤ st1.log_tail ∨ sb.size < st1.cur_seg_end then none
      else allocFinish sb st1 ty i o v
  | [] =>
    match gcs with
    | some f => allocFinish sb (switchToSeg sb st f) ty i o v
    | none => none

/-- The SSB reservation taken when at most 2 blocks remain in the segment
(fs.c:1920-1937): the current tail block is reserved for the SSB, the buffer
is staged for flushing, and the tail consumes the reserved block. -/
def reserveSsbBlock (st : LfsSt) : LfsSt :=
  { st with
    reserved_ssb := st.log_tail,
    ssb_flushing := true,
    ssb_pend := st.ssb_buf,
    ssb_pending_block := st.log_tail,
    ssb_buf := [],
    log_tail := st.log_tail + 1 }

/-- The core of `lfs_alloc_with_ssb` (fs.c:1896-2043), i.e. the function body
from the allocation critical section onward.  The GC/sync triggering prologue
(fs.c:1842-1894) only transforms the engine state before this core runs; the
theorems below quantify over all entry states, which covers any prologue
effect.  Steps, in source order: the reserved-window skip loop (disabled
while syncing), the SSB reservation when at most 2 blocks remain, the jump to
the next sequential segment or to `use_free_segment` at a segment boundary,
and the final block take with its atomic SSB-entry append. -/
def lfs_alloc_core (sb : SB) (gcs : Option Nat) (st : LfsSt) (ty i o v : Nat) :
    Option (Nat × LfsSt) :=
  let st1 := if st.syncing then st
    else { st with log_tail := skipReserved sb sb.segsize st.log_tail st.cur_seg_end }
  let segRem := sb.segsize - (st1.log_tail - sb.segstart) % sb.segsize
  let st2 := if segRem ≤ 2 ∧ 0 < st1.ssb_buf.length ∧ st1.ssb_flushing = false then
      reserveSsbBlock st1 else st1
  if segRem ≤ 2 then
    let nextSeg := ((st2.log_tail - sb.segstart + sb.segsize - 1) / sb.segsize) * sb.segsize
      + sb.segstart
    if nextSeg < st2.cur_seg_end then
      allocFinish sb { st2 with log_tail := nextSeg } ty i o v
    else useFreeSegment sb gcs st2 ty i o v
  else if st2.cur_seg_end ≤ st2.log_tail then useFreeSegment sb gcs st2 ty i o v
  else allocFinish sb st2 ty i o v

/-- `gc_free_segment` (fs.c:661-681): panic (None) on an out-of-range segment
index; otherwise push the segment on the free ring (if the ring has room) and
mark its SUT entry with `SUT_FREE_MARKER`. -/
def gc_free_segment (sb : SB) (seg : Nat) (st : LfsSt) : Option LfsSt :=
  if sb.nsegs ≤ seg then none
  else some { st with
    free_segs := if st.free_segs.length < LFS_NSEGS_MAX then st.free_segs ++ [seg]
      else st.free_segs,
    sut_live := st.sut_live.set seg SUT_FREE_MARKER }

/-! ## Allocation/free event traces (for the allocator freshness claim)

A trace interleaves allocator calls with cleaner free events.  A free event
models `gc_free_segment` as invoked from `gc_clean_segment` on a selected
victim; `gc_select_victims` (fs.c:580-589) only ever selects a segment that is
not the one currently being written (fs.c:581) and whose SUT entry is not the
free marker (fs.c:589), so those two facts guard the event.  Alloc events run
`lfs_alloc_core` with no emergency-GC oracle: an emergency GC's effect is a
free event followed by the allocation that consumes it. -/

inductive LfsEv where
  | alloc (ty inum off ver : Nat)
  | free (seg : Nat)
deriving Repr, DecidableEq

/-- A cleaner free event with the victim-selection guards (see above). -/
def lfs_free_event (sb : SB) (st : LfsSt) (seg : Nat) : Option LfsSt :=
  if seg = (st.log_tail - sb.segstart) / sb.segsize then none
  else if st.sut_live.getD seg 0 = SUT_FREE_MARKER then none
  else gc_free_segment sb seg st

/-- Run a trace of events, collecting the blocks returned by the allocator in
order.  None if any event panics. -/
def runEvents (sb : SB) : List LfsEv → LfsSt → Option (LfsSt × List Nat)
  | [], st => some (st, [])
  | LfsEv.alloc ty i o v :: rest, st =>
    match lfs_alloc_core sb none st ty i o v with
    | none => none
    | some (b, st') => (runEvents sb rest st').map (fun p => (p.1, b :: p.2))
  | LfsEv.free seg :: rest, st =>
    match lfs_free_event sb st seg with
    | none => none
    | some st' => runEvents sb rest st'

/-- A small but fully valid disk geometry (3 segments of 32 blocks after the
4 reserved blocks): the superblock fields are runtime inputs of fs.c, read
from whatever disk is mounted (fs.c:2170). -/
def sbSmall : SB := { size := 100, nsegs := 3, segsize := 32, segstart := 4 }

/-- Freshly mounted engine state on `sbSmall` right after mkfs: log tail at the
first segment (mkfs.c:108), sequential allocation region up to the end of the
disk (fs.c:2183), empty SSB buffer and free ring. -/
def stSmall : LfsSt :=
  { log_tail := 4, cur_seg_end := 100, syncing := false, ssb_flushing := false,
    ssb_buf := [], ssb_pend := [], ssb_pending_block := 0, reserved_ssb := 0,
    free_segs := [], sut_live := [0, 0, 0], imap := [], gc_failed := false }

/-- The double-allocation trace: the cleaner frees virgin segment 1 (which
lies ahead of the sequential log tail); the allocator then walks into
segment 1 sequentially, hands out its blocks, exhausts the sequential area,
pops segment 1 from the free ring and hands out the same blocks again. -/
def doubleAllocTrace : List LfsEv :=
  LfsEv.free 1 :: List.replicate 91 (LfsEv.alloc 0 0 0 0)
/-! ## On-disk inodes and the cleaner's liveness decision (fs.c:1207-1634)

Block-device reads (`bread`) are external to the engine (the spec's block
cache is out of scope), so disk contents and the dirty-inode buffers are
supplied as oracles: `dirty`/`flushing` are the two inode staging buffers as
(inum, dinode) association lists, `diskInode b s` is the dinode at slot `s` of
block `b`, and `diskWord b j` is the j-th 32-bit word of block `b` (used to
read indirect blocks). -/

structure DInode where
  type : Nat
  size : Nat
  addrs : List Nat
deriving Repr, DecidableEq

structure GcOracles where
  dirty : List (Nat × DInode)
  flushing : List (Nat × DInode)
  diskInode : Nat → Nat → DInode
  diskWord : Nat → Nat → Nat

/-- Linear search of a dirty-inode buffer by inode number (the loops at
fs.c:1311-1329). -/
def lookupInum (l : List (Nat × DInode)) (inum : Nat) : Option DInode :=
  (l.find? (fun p => p.1 = inum)).map Prod.snd

/-- The current address of the block described by a DATA/INDIRECT SSB entry,
given the inode's current dinode (fs.c:1332-1416; the dirty-buffer branch and
the on-disk branch compute the same addresses with the same validity checks).
None means the C code executed `continue` (unallocated or invalid address). -/
def addrOfEntry (sb : SB) (O : GcOracles) (di : DInode) (e : SSBEntry) : Option Nat :=
  if e.type = SSB_TYPE_INDIRECT then some (di.addrs.getD NDIRECT 0)
  else if e.offset < NDIRECT then some (di.addrs.getD e.offset 0)
  else
    let ind := di.addrs.getD NDIRECT 0
    if ind = 0 then none
    else if sb.size ≤ ind then none
    else if NINDIRECT ≤ e.offset - NDIRECT then none
    else some (O.diskWord ind (e.offset - NDIRECT))

/-- What the cleaner decides to do with one SSB entry of the victim segment
`seg_idx` (the per-entry logic of `gc_clean_segment`, fs.c:1241-1446). -/
inductive GcAction where
  | skip
  | inodeScan
  | reloc (addr : Nat)
deriving Repr, DecidableEq

/-- The liveness decision for one SSB entry (fs.c:1241-1446).  INODE entries
trigger the imap scan.  For DATA/INDIRECT entries: a deleted or in-flight
imap entry, or a version mismatch between the SSB entry and the imap
(fs.c:1294-1301), means the block is dead and the entry is skipped; otherwise
the current address is fetched (dirty buffer first, then flushing buffer,
then the on-disk inode block) and the block is relocated only if that address
is valid and falls inside the victim segment (fs.c:1418-1446). -/
def gc_entry_decision (sb : SB) (O : GcOracles) (st : LfsSt) (seg_idx : Nat)
    (e : SSBEntry) : GcAction :=
  if e.type = SSB_TYPE_INODE then GcAction.inodeScan
  else
    let ime := st.imap.getD e.inum 0
    if ime = 0 ∨ ime = IMAP_PLACEHOLDER then GcAction.skip
    else if IMAP_VERSION ime ≠ e.version then GcAction.skip
    else
      let di? :=
        match lookupInum O.dirty e.inum with
        | some di => some di
        | none =>
          match lookupInum O.flushing e.inum with
          | some di => some di
          | none =>
            if sb.size ≤ IMAP_BLOCK ime then none
            else some (O.diskInode (IMAP_BLOCK ime) (IMAP_SLOT ime))
      match di? with
      | none => GcAction.skip
      | some di =>
        if di.type = 0 then GcAction.skip
        else
          match addrOfEntry sb O di e with
          | none => GcAction.skip
          | some a =>
            if a = 0 then GcAction.skip
            else if sb.size ≤ a then GcAction.skip
            else if a < sb.segstart then GcAction.skip
            else if (a - sb.segstart) / sb.segsize ≠ seg_idx then GcAction.skip
            else GcAction.reloc a

/-! ## Relocation and per-victim cleaning (fs.c:686-1716)

`gc_relocate_block` and `gc_relocate_inode_block` allocate at the log tail,
copy the block and rewrite the owning pointers; on exhaustion they fail and
the cleaner aborts the victim.  For the early-exit/bookkeeping claims their
exact data movement is irrelevant, so they are oracle functions returning
(success flag, post state); the facts the theorems need about them (they only
pop the free ring, never push, and never store the free marker in the SUT -
their only SUT writes go through `lfs_update_usage`, fs.c:462-487, which adds
or saturating-subtracts BSIZE) are stated as explicit hypotheses. -/

structure RelocFns where
  relocB : LfsSt → SSBEntry → Nat → Bool × LfsSt
  relocI : LfsSt → Nat → Nat → Bool × LfsSt

/-- `lfs_write_ssb_now` (fs.c:304-377): flush the SSB buffer to one block.
Returns the block written (none if nothing was written) and the new state.
The block is the explicitly reserved one if present, else the log tail
(switching to a free segment at a region boundary; with no free segment the
entries are kept and nothing is written). -/
def lfs_write_ssb_now (sb : SB) (st : LfsSt) : Option Nat × LfsSt :=
  if st.ssb_flushing then (none, st)
  else if st.ssb_buf.length = 0 then (none, st)
  else if st.reserved_ssb ≠ 0 then
    (some st.reserved_ssb, { st with ssb_buf := [], reserved_ssb := 0 })
  else if st.cur_seg_end ≤ st.log_tail then
    match st.free_segs with
    | f :: rest =>
      let st1 := switchToSeg sb { st with free_segs := rest } f
      (some st1.log_tail, { st1 with ssb_buf := [], log_tail := st1.log_tail + 1 })
    | [] => (none, st)
  else (some st.log_tail, { st with ssb_buf := [], log_tail := st.log_tail + 1 })

/-- The imap scan for an INODE entry (fs.c:1245-1284): every imap entry whose
block lies in the victim segment names a live inode block; each such block is
relocated once (`done` is the dedup set `relocated_inode_blocks`). -/
def relocInodeGo (sb : SB) (R : RelocFns) (lo hi : Nat) :
    List Nat → List Nat → LfsSt → Bool × LfsSt
  | [], _, st => (true, st)
  | ino :: rest, done, st =>
    let ime := st.imap.getD ino 0
    if ime = 0 ∨ ime = IMAP_PLACEHOLDER then relocInodeGo sb R lo hi rest done st
    else
      let ib := IMAP_BLOCK ime
      if lo ≤ ib ∧ ib < hi ∧ ib ∉ done then
        match R.relocI st ino ib with
        | (false, st') => (false, st')
        | (true, st') => relocInodeGo sb R lo hi rest (ib :: done) st'
      else relocInodeGo sb R lo hi rest done st

/-- All inode blocks of the victim segment, relocated via the imap scan
(inos 1 .. LFS_NINODES-1, fs.c:1253). -/
def relocInodeBlocks (sb : SB) (R : RelocFns) (seg : Nat) (st : LfsSt) : Bool × LfsSt :=
  let lo := sb.segstart + seg * sb.segsize
  relocInodeGo sb R lo (lo + sb.segsize) (List.range' 1 (LFS_NINODES - 1)) [] st

/-- Processing of a single SSB entry inside `gc_clean_segment`: decide, then
relocate.  False in the first component reports a relocation failure (the
out-of-space early exit trigger, fs.c:1269-1274 and 1439-1445). -/
def gc_step (sb : SB) (O : GcOracles) (R : RelocFns) (seg : Nat) (st : LfsSt)
    (e : SSBEntry) : Bool × LfsSt :=
  match gc_entry_decision sb O st seg e with
  | GcAction.skip => (true, st)
  | GcAction.reloc a => R.relocB st e a
  | GcAction.inodeScan => relocInodeBlocks sb R seg st

/-- The entry loop of `gc_clean_segment` (fs.c:1229-1450): process entries in
order, counting relocations (approximating `live_blocks` by entries whose
processing ran a relocation step), and stop at the first relocation failure.
First component: none = stopped early, some n = completed. -/
def gc_clean_entries (sb : SB) (O : GcOracles) (R : RelocFns) (seg : Nat) :
    List SSBEntry → LfsSt → Nat → Option Nat × LfsSt
  | [], st, n => (some n, st)
  | e :: rest, st, n =>
    match gc_step sb O R seg st e with
    | (false, st') => (none, st')
    | (true, st') =>
      gc_clean_entries sb O R seg rest st'
        (if gc_entry_decision sb O st seg e = GcAction.skip then n else n + 1)

/-- `gc_clean_segment` (fs.c:1209-1634) on the SSB-described entries of the
victim (the concatenated entries of its checksum-valid SSBs, as collected by
`gc_find_ssbs`): process every entry; at `gc_early_exit` flush the SSB buffer;
mark the victim free only if no relocation failed.  Result: outer none =
panic (invalid segment index in `gc_free_segment`); inner none = stopped
early, i.e. the C function returned -1. -/
def gc_clean_segment (sb : SB) (O : GcOracles) (R : RelocFns) (st : LfsSt)
    (seg : Nat) (entries : List SSBEntry) : Option (Option Nat × LfsSt) :=
  match gc_clean_entries sb O R seg entries st 0 with
  | (none, st1) => some (none, (lfs_write_ssb_now sb st1).2)
  | (some n, st1) =>
    match gc_free_segment sb seg (lfs_write_ssb_now sb st1).2 with
    | none => none
    | some st2 => some (some n, st2)

/-- The victim loop of `lfs_gc` (fs.c:1686-1696): clean victims in order,
accumulating `total_cleaned`; a victim that stops early clears `gc_success`
and breaks the loop. -/
def lfs_gc_loop (sb : SB) (O : GcOracles) (R : RelocFns) :
    List (Nat × List SSBEntry) → LfsSt → Nat → Option (Bool × Nat × LfsSt)
  | [], st, total => some (true, total, st)
  | (seg, es) :: rest, st, total =>
    match gc_clean_segment sb O R st seg es with
    | none => none
    | some (some n, st') => lfs_gc_loop sb O R rest st' (total + n)
    | some (none, st') => some (false, total, st')

/-- `lfs_gc` (fs.c:1637-1716) from the point where victims have been selected.
`victims` pairs each selected segment with its SSB entries; `sync` is the
`lfs_sync` call at fs.c:1705 (an oracle - its writes do not touch `gc_failed`
and only pop the free ring).  With no victims, or with too little space to
clean safely (fs.c:1667-1680), the latch is set and nothing is cleaned;
otherwise the victims are cleaned, sync runs, and `gc_failed` is set unless
the run succeeded and relocated at least one block (fs.c:1709-1715). -/
def lfs_gc (sb : SB) (O : GcOracles) (R : RelocFns) (sync : LfsSt → LfsSt)
    (victims : List (Nat × List SSBEntry)) (st : LfsSt) : Option LfsSt :=
  if victims = [] then some { st with gc_failed := true }
  else if st.cur_seg_end - st.log_tail < sb.segsize / 2 ∧ st.free_segs = [] then
    some { st with gc_failed := true }
  else
    match lfs_gc_loop sb O R victims st 0 with
    | none => none
    | some (success, total, st1) =>
      some { sync st1 with gc_failed := !(success && decide (0 < total)) }

/-- `itrunc` (fs.c:2627-2659) increments the inode's version counter (a C
`uint`) after releasing the data blocks; this is the truncate-then-recreate
version bump of the stale-entry claim. -/
def itrunc_version (v : Nat) : Nat := (v + 1) % U32
/-! ## Cost-benefit victim selection (fs.c:517-629) -/

structure SutE where
  live : Nat
  age : Nat
deriving Repr, DecidableEq

/-- `gc_cost_benefit` (fs.c:521-555).  `u_percent` clamps at 100 (so in the
else branch `live < segsize*BSIZE` and `live*100` cannot overflow 32 bits);
the age factor is `ticks - age` (at least 1); the score is
`((100 - u) * age_factor * 1000) / (100 + u)` evaluated in C `uint`
arithmetic, i.e. each multiplication reduces mod 2^32 (the quotient then
needs no further reduction). -/
def gc_cost_benefit (segsize ticks : Nat) (s : SutE) : Nat :=
  let segBytes := segsize * BSIZE
  let u := if segBytes ≤ s.live then 100 else s.live * 100 / segBytes
  let ageF0 := if s.age < ticks then ticks - s.age else 1
  let ageF := if ageF0 = 0 then 1 else ageF0
  if 100 ≤ u then 0
  else (100 - u) * ageF % U32 * 1000 % U32 / (100 + u)

structure Victim where
  seg : Nat
  score : Nat
  util : Nat
deriving Repr, DecidableEq

/-- Insertion into the descending-score victim list (fs.c:604-614): find the
first position whose score is exceeded strictly, shift, insert. -/
def insertVictim (v : Victim) : List Victim → List Victim
  | [] => [v]
  | w :: ws => if w.score < v.score then v :: w :: ws else w :: insertVictim v ws

/-- `gc_select_victims` (fs.c:566-629).  Scan segments 0..nsegs-1 (capped at
LFS_NSEGS_MAX), skipping the current segment and free-marked segments.
`util_percent` is `live * 100 / segBytes` in C `uint` arithmetic (the product
reduces mod 2^32 - `live` is unclamped here).  Desperation (fs.c:596-597):
with no victim found so far, a non-full segment whose score is 0 is taken
with score 1.  Zero scores are skipped; otherwise insert into the
size-`maxv` descending list, evicting the lowest score when full. -/
def gc_select_step (sb : SB) (ticks cur maxv : Nat) (sut : List SutE)
    (acc : List Victim) (i : Nat) : List Victim :=
  if i = cur then acc
  else
    let live := (sut.getD i ⟨0, 0⟩).live
    if live = SUT_FREE_MARKER then acc
    else
      let util := live * 100 % U32 / (sb.segsize * BSIZE)
      let score0 := gc_cost_benefit sb.segsize ticks (sut.getD i ⟨0, 0⟩)
      let score := if acc.length = 0 ∧ util < 100 ∧ score0 = 0 then 1 else score0
      if score = 0 then acc
      else if acc.length < maxv then insertVictim ⟨i, score, util⟩ acc
      else if ((acc.getLast?.map Victim.score).getD 0) < score then
        (insertVictim ⟨i, score, util⟩ acc).dropLast
      else acc

def gc_select_victims (sb : SB) (ticks cur maxv : Nat) (sut : List SutE) :
    List Victim :=
  (List.range (min sb.nsegs LFS_NSEGS_MAX)).foldl (gc_select_step sb ticks cur maxv sut) []

/-! ## Inode content: readi and writei (fs.c:2674-2848)

The in-memory inode (`struct inode`, locked and valid).  `bmap` both reads
and allocates, and `bread` is external, so the block addresses `bmap` yields
during a read are an oracle `addrOf`, the blocks `lfs_alloc_with_ssb` yields
during a write are an oracle `alloc` (indexed by allocation order; allocation
failure is a kernel panic, never a return), and indirect-block words are the
oracle `indw`. -/

/-- T_DEV from the xv6 `stat.h` convention (T_DIR=1, T_FILE=2, T_DEV=3). -/
def T_DEV : Nat := 3

structure Inode where
  inum : Nat
  type : Nat
  size : Nat
  version : Nat
  addrs : List Nat
deriving Repr, DecidableEq

/-- The copy loop of `readi` (fs.c:2693-2704): per round, fetch the address
of block `off / BSIZE`, fail (-1, modelled none) if it is out of range,
else advance by `m = min(n - tot, BSIZE - off % BSIZE)` bytes.  The C loop
condition is `tot < n`; fuel `n` is enough since every round advances `tot`
by at least one.  Returns the total byte count copied. -/
def readi_loop (S : Nat) (addrOf : Nat → Nat) (n : Nat) :
    Nat → Nat → Nat → Option Nat
  | 0, tot, _ => some tot
  | fuel + 1, tot, off =>
    if tot < n then
      if S ≤ addrOf (off / BSIZE) then none
      else
        let m := min (n - tot) (BSIZE - off % BSIZE)
        readi_loop S addrOf n fuel (tot + m) (off + m)
    else some tot

/-- `readi` (fs.c:2676-2706) for device inodes delegates to the device switch
(result supplied as `devResult`); otherwise: reject reads starting past the
end or whose extent wraps around 2^32; clamp `n` to the file size; run the
copy loop; return -1 if it hit an invalid address, else the clamped count. -/
def readi (S : Nat) (addrOf : Nat → Nat) (devResult : Int) (ip : Inode)
    (off n : Nat) : Int :=
  if ip.type = T_DEV then devResult
  else if ip.size < off ∨ (off + n) % U32 < off then -1
  else
    let n1 := if ip.size < (off + n) % U32 then ip.size - off else n
    match readi_loop S addrOf n1 n1 0 off with
    | none => -1
    | some _ => (n1 : Int)

/-- One round of the `writei` copy-on-write loop (fs.c:2733-2835), from state
(tot, off, ip, k, ws): k counts allocations consumed from the `alloc` oracle
and ws logs every data/indirect block written.  Steps: find the old address
(through the indirect block when `bn >= NDIRECT`, failing on an out-of-range
indirect pointer); allocate the new data block; for a partial write with an
out-of-range old address fail; write the new block; then redirect the inode
pointer, copy-on-writing the indirect block (a fresh `alloc` with its own SSB
entry) when the block sits behind it.  A false first component is the C
`return -1` out of the loop (effects so far kept). -/
def writei_loop (S : Nat) (alloc : Nat → Nat) (indw : Nat → Nat → Nat) (n : Nat) :
    Nat → Nat → Nat → Inode → Nat → List Nat → Bool × Inode × Nat × List Nat
  | 0, _, _, ip, k, ws => (true, ip, k, ws)
  | fuel + 1, tot, off, ip, k, ws =>
    if tot < n then
      let bn := off / BSIZE
      let m := min (n - tot) (BSIZE - off % BSIZE)
      let indPtr := ip.addrs.getD NDIRECT 0
      let oldA? : Option Nat :=
        if bn < NDIRECT then some (ip.addrs.getD bn 0)
        else if indPtr ≠ 0 then
          if S ≤ indPtr then none else some (indw indPtr (bn - NDIRECT))
        else some 0
      match oldA? with
      | none => (false, ip, k, ws)
      | some oldA =>
        let newA := alloc k
        if m < BSIZE ∧ oldA ≠ 0 ∧ S ≤ oldA then (false, ip, k + 1, ws)
        else
          let ws1 := ws ++ [newA]
          if bn < NDIRECT then
            writei_loop S alloc indw n fuel (tot + m) (off + m)
              { ip with addrs := ip.addrs.set bn newA } (k + 1) ws1
          else
            if indPtr = 0 then
              let newInd := alloc (k + 1)
              writei_loop S alloc indw n fuel (tot + m) (off + m)
                { ip with addrs := ip.addrs.set NDIRECT newInd } (k + 2)
                (ws1 ++ [newInd])
            else if S ≤ indPtr then (false, ip, k + 1, ws1)
            else
              let newInd := alloc (k + 1)
              writei_loop S alloc indw n fuel (tot + m) (off + m)
                { ip with addrs := ip.addrs.set NDIRECT newInd } (k + 2)
                (ws1 ++ [newInd])
    else (true, ip, k, ws)

/-- `writei` (fs.c:2713-2848).  Device inodes delegate (`devResult`).  The
guards (fs.c:2728-2731): reject writes starting past the end, writes whose
extent wraps around 2^32, and writes whose extent exceeds `MAXFILE * BSIZE` -
all before any block is touched.  Then the per-block copy-on-write loop runs
(arithmetic inside the loop stays below MAXFILE*BSIZE + BSIZE, far from
2^32, so plain Nat suffices there); afterwards the size is extended if the
write went past it.  Result: (return value, final inode, blocks written). -/
def writei (S : Nat) (alloc : Nat → Nat) (indw : Nat → Nat → Nat)
    (devResult : Int) (ip : Inode) (off n : Nat) : Int × Inode × List Nat :=
  if ip.type = T_DEV then (devResult, ip, [])
  else if ip.size < off ∨ (off + n) % U32 < off then (-1, ip, [])
  else if MAXFILE * BSIZE < (off + n) % U32 then (-1, ip, [])
  else
    match writei_loop S alloc indw n n 0 off ip 0 [] with
    | (false, ip1, _, ws) => (-1, ip1, ws)
    | (true, ip1, _, ws) =>
      let ip2 := if 0 < n ∧ ip.size < off + n then { ip1 with size := off + n } else ip1
      ((n : Int), ip2, ws)
/-- The bookkeeping facts about the free ring and the SUT that relocation and
sync preserve: they never add a segment to the free ring (they only pop it,
fs.c:705-712/840-847 and the switches inside `lfs_write_sut`/`lfs_write_imap`)
and never store the free marker in the SUT (their SUT writes are the reset to
0 on a pop and `lfs_update_usage`, fs.c:462-487, which adds or
saturating-subtracts BSIZE). -/
def RingSutFrame (s' s : LfsSt) : Prop :=
  (∀ f, f ∈ s'.free_segs → f ∈ s.free_segs) ∧
  (∀ i, s'.sut_live.getD i 0 = SUT_FREE_MARKER → s.sut_live.getD i 0 = SUT_FREE_MARKER)

/-! ## Concrete instances used to exercise the theorems -/

/-- Oracles describing an empty dirty buffer and an all-zero disk. -/
def oraclesZero : GcOracles :=
  { dirty := [], flushing := [],
    diskInode := fun _ _ => { type := 0, size := 0, addrs := [] },
    diskWord := fun _ _ => 0 }

/-- Relocation functions that succeed without touching the state. -/
def relocId : RelocFns :=
  { relocB := fun s _ _ => (true, s), relocI := fun s _ _ => (true, s) }

/-- Relocation functions that fail (out of space) without touching the state. -/
def relocFail : RelocFns :=
  { relocB := fun s _ _ => (false, s), relocI := fun s _ _ => (false, s) }

/-- Oracles in which inode 1 is staged dirty with its first direct block at
block 36 (inside segment 1 of `sbSmall`). -/
def oraclesDirty36 : GcOracles :=
  { oraclesZero with
    dirty := [(1, { type := 2, size := BSIZE, addrs := [36] })] }

/-- Engine state on `sbSmall` whose imap maps inode 1 to the entry 33
(block 0, version 2, slot 1). -/
def stImap33 : LfsSt := { stSmall with imap := [0, 33] }

/-- Engine state on `sbSmall` whose log tail (block 34, segment offset 30)
sits in the reserved window of segment 0. -/
def stWindow : LfsSt := { stSmall with log_tail := 34 }

/-- `stImap33` with the `gc_failed` latch set (the state a failed GC run
leaves behind). -/
def stGcFailed : LfsSt := { stImap33 with gc_failed := true }

/-- The invariant of the victim-selection scan (the property proved about the
list `gc_select_victims` builds): every victim so far is a non-current,
non-free segment which either has a positive cost-benefit score or (for the
single desperation pick) utilization below 100%, and at most one victim has
cost-benefit score 0. -/
def SelInv (sb : SB) (ticks cur : Nat) (sut : List SutE) (acc : List Victim) : Prop :=
  (∀ w ∈ acc, w.seg ≠ cur ∧ (sut.getD w.seg ⟨0, 0⟩).live ≠ SUT_FREE_MARKER ∧
    (0 < gc_cost_benefit sb.segsize ticks (sut.getD w.seg ⟨0, 0⟩) ∨
      (sut.getD w.seg ⟨0, 0⟩).live * 100 % U32 / (sb.segsize * BSIZE) < 100)) ∧
  acc.countP
    (fun w => decide (gc_cost_benefit sb.segsize ticks (sut.getD w.seg ⟨0, 0⟩) = 0)) ≤ 1

/-- A SUT for `sbSmall` after about two weeks of ticks: segments 1 and 2
are both empty (live 0); segment 1 has never been touched (age 0) while
segment 2 was touched 1000 ticks ago. -/
def sutCex : List SutE := [⟨0, 0⟩, ⟨0, 0⟩, ⟨0, 134217728 - 1000⟩]

/-- A regular file inode of 1500 bytes with no blocks mapped yet. -/
def ipRead : Inode :=
  { inum := 1, type := 2, size := 1500, version := 0, addrs := List.replicate 13 0 }

/-- A regular file inode already grown to the last mappable byte
(size = MAXFILE * BSIZE), its indirect block at block 50. -/
def ipFull : Inode :=
  { inum := 1, type := 2, size := MAXFILE * BSIZE, version := 0,
    addrs := List.replicate 12 0 ++ [50] }

/-! ## Theorems -/

/-- C1.  The claim says `lfs_write_checkpoint` increments both the header
timestamp (first word) and the footer timestamp (last word) so that they are
equal after the write.  The code (fs.c:187) increments only the header;
`timestamp_end` is assigned nowhere in fs.c, contradicting fs.h:68-69/91
("Header and footer timestamps must match", "written LAST").  Starting from
the all-zero checkpoint, one write leaves header 1 and footer 0. -/
theorem lfs_write_checkpoint_footer_never_incremented :
    (∀ sb cp t, (lfs_write_checkpoint sb cp t).timestamp_end = cp.timestamp_end) ∧
    (lfs_write_checkpoint sbDisk cpZero 10).timestamp = 1 ∧
    (lfs_write_checkpoint sbDisk cpZero 10).timestamp_end = 0 :=
  ⟨fun _ _ _ => rfl, rfl, rfl⟩

/-- C2.  The claim says recovery accepts the checkpoint iff the header and
footer timestamps agree and `valid != 0`; a torn checkpoint must be rejected.
`lfs_read_checkpoint` (fs.c:148) tests only `valid`: the torn checkpoint
`cpTorn` (header 5, footer 3, valid 1) is accepted and its `log_tail` 77
adopted, although the validity predicate the spec (and fs.h:68-69) describe
evaluates to false on it. -/
theorem lfs_read_checkpoint_accepts_torn_checkpoint :
    lfs_read_checkpoint sbDisk cpTorn = (77, true) ∧
    checkpoint_valid_spec cpTorn = false ∧
    cpTorn.timestamp ≠ cpTorn.timestamp_end ∧ cpTorn.valid ≠ 0 :=
  ⟨rfl, rfl, by decide, by decide⟩

/-- C3.  The claim says the SSB checksum is the XOR over all entries of
`inum`, `offset` and `version`.  Because `gc_compute_checksum` (fs.c:502-505)
XORs the first three 32-bit words of each 16-byte entry, it actually folds in
the word holding `type` and leaves `version` out: on the single DATA entry
with version 7 the code computes 1 while the documented checksum is 7.  The
verifier recomputes with the same function, so the mismatch is internally
invisible. -/
theorem gc_compute_checksum_omits_version :
    gc_compute_checksum [⟨1, 0, 0, 7⟩] = 1 ∧
    ssb_checksum_spec [⟨1, 0, 0, 7⟩] = 7 ∧
    gc_compute_checksum [⟨1, 0, 0, 7⟩] ≠ ssb_checksum_spec [⟨1, 0, 0, 7⟩] ∧
    (∀ c es, gc_verify_checksum c es = decide (gc_compute_checksum es = c)) :=
  ⟨rfl, rfl, by decide, fun _ _ => rfl⟩

set_option maxRecDepth 40000 in
/-- C4.  The claim says every allocation returns a block not handed out since
its segment was last freed.  Counterexample run on a valid 3-segment disk:
the cleaner frees the virgin segment 1 which lies ahead of the sequential log
tail (victim selection, fs.c:580-629, does not exclude such segments); the
allocator then walks into segment 1 sequentially and hands out block 36, and
after the sequential area is exhausted it pops segment 1 from the free ring
and hands out block 36 a second time - the only free event in the trace is
the initial one, so the second handing is not fresh. -/
theorem lfs_alloc_hands_out_block_36_twice :
    (runEvents sbSmall doubleAllocTrace stSmall).map (fun p => p.2.count 36) = some 2 ∧
    doubleAllocTrace = LfsEv.free 1 :: List.replicate 91 (LfsEv.alloc 0 0 0 0) ∧
    doubleAllocTrace.count (LfsEv.free 1) = 1 :=
  ⟨by decide, rfl, by decide⟩
/-- C6.  A DATA or INDIRECT SSB entry whose version differs from the version
recorded in the imap is dead: `gc_clean_segment` skips it (fs.c:1299-1301),
relocating nothing and leaving the state - in particular the imap - exactly
as it was.  The final conjunct is the truncate-then-recreate instance: after
`itrunc` bumps the inode version from `v` to `v+1` (fs.c:2657), any imap
entry encoding the new version mismatches a stale SSB entry carrying `v`, for
every 32-bit `v`, so such an entry is always skipped. -/
theorem gc_version_mismatch_skips_entry (sb : SB) (O : GcOracles) (R : RelocFns)
    (st : LfsSt) (seg : Nat) (e : SSBEntry)
    (hty : e.type = SSB_TYPE_DATA ∨ e.type = SSB_TYPE_INDIRECT)
    (h0 : st.imap.getD e.inum 0 ≠ 0)
    (hp : st.imap.getD e.inum 0 ≠ IMAP_PLACEHOLDER)
    (hv : IMAP_VERSION (st.imap.getD e.inum 0) ≠ e.version) :
    gc_step sb O R seg st e = (true, st) ∧
    gc_entry_decision sb O st seg e = GcAction.skip ∧
    (∀ b s v, v < U32 → IMAP_VERSION (IMAP_ENCODE b (itrunc_version v) s) ≠ v) := by
  have hty2 : ¬(e.type = SSB_TYPE_INODE) := by
    rcases hty with h | h <;> rw [h] <;> decide
  have hdec : gc_entry_decision sb O st seg e = GcAction.skip := by
    unfold gc_entry_decision
    rw [if_neg hty2, if_neg (by push_neg; exact ⟨h0, hp⟩), if_pos hv]
  refine ⟨?_, hdec, ?_⟩
  · unfold gc_step
    rw [hdec]
  · intro b s v hv32
    simp only [IMAP_VERSION, IMAP_ENCODE, itrunc_version, U32] at *
    omega
/-- Witness for C6: inode 1's imap entry 33 carries version 2; a stale DATA
entry with version 5 is skipped and the state is untouched. -/
theorem gc_version_mismatch_skips_entry_witness :
    gc_step sbSmall oraclesZero relocId 0 stImap33 ⟨1, 1, 0, 5⟩ = (true, stImap33) ∧
    IMAP_VERSION (stImap33.imap.getD 1 0) = 2 :=
  ⟨(gc_version_mismatch_skips_entry sbSmall oraclesZero relocId stImap33 0
      ⟨1, 1, 0, 5⟩ (Or.inl rfl) (by decide) (by decide) (by decide)).1,
    by decide⟩
/-- Characterization of the reserved-window skip loop on the shipped geometry
(segstart 4, segsize 32): with enough fuel the loop stops at a segment
boundary, at an offset outside the reserved window, or at/after the end of
the allocation region, and never moves the tail below `segstart`. -/
theorem skipReserved_spec (sb : SB) (h4 : sb.segstart = 4) (h32 : sb.segsize = 32) :
    ∀ fuel t e, 4 ≤ t → (32 - (t - 4) % 32) % 32 ≤ fuel →
      4 ≤ skipReserved sb fuel t e ∧
      ((skipReserved sb fuel t e - 4) % 32 = 0 ∨
        2 < 32 - (skipReserved sb fuel t e - 4) % 32 ∨
        e ≤ skipReserved sb fuel t e) := by
  intro fuel
  induction fuel with
  | zero =>
    intro t e ht hf
    refine ⟨ht, Or.inl ?_⟩
    simp only [skipReserved]
    omega
  | succ k ih =>
    intro t e ht hf
    simp only [skipReserved, h4, h32]
    split_ifs with h1 h2 h3
    · exact ⟨ht, Or.inl h1⟩
    · exact ⟨ht, Or.inr (Or.inl h2)⟩
    · exact ⟨ht, Or.inr (Or.inr h3)⟩
    · have := ih (t + 1) e (by omega) (by omega)
      simpa [h4, h32] using this
/-- Inversion of the `alloc_block` tail: the block handed out is the current
log tail, which must be inside the disk, and the tail advances past it. -/
theorem allocFinish_inv (sb : SB) (st : LfsSt) (ty i o v b : Nat) (st' : LfsSt)
    (h : allocFinish sb st ty i o v = some (b, st')) :
    b = st.log_tail ∧ b < sb.size ∧ st'.log_tail = b + 1 := by
  simp only [allocFinish] at h
  split_ifs at h with hsz hssb
  · simp only [Option.some.injEq, Prod.mk.injEq] at h
    obtain ⟨rfl, rfl⟩ := h
    exact ⟨rfl, by omega, rfl⟩
  · simp only [Option.some.injEq, Prod.mk.injEq] at h
    obtain ⟨rfl, rfl⟩ := h
    exact ⟨rfl, by omega, rfl⟩
/-- Every block obtained through `use_free_segment` is the first block of a
segment. -/
theorem useFreeSegment_offset (sb : SB) (h4 : sb.segstart = 4) (h32 : sb.segsize = 32)
    (gcs : Option Nat) (st : LfsSt) (ty i o v b : Nat) (st' : LfsSt)
    (h : useFreeSegment sb gcs st ty i o v = some (b, st')) :
    (b - 4) % 32 = 0 := by
  rcases hfs : st.free_segs with _ | ⟨f, rest⟩
  · simp only [useFreeSegment, hfs] at h
    rcases gcs with _ | f
    · exact absurd h (by simp)
    · obtain ⟨hb, _, _⟩ := allocFinish_inv _ _ _ _ _ _ _ _ h
      simp only [switchToSeg, h4, h32] at hb
      omega
  · simp only [useFreeSegment, hfs] at h
    split_ifs at h with hn hbad
    obtain ⟨hb, _, _⟩ := allocFinish_inv _ _ _ _ _ _ _ _ h
    simp only [switchToSeg, h4, h32] at hb
    omega
/-- C5.  On the shipped geometry (segstart 4, segsize 32), an allocation made
while the engine is not syncing never returns a block in the reserved window
of its segment: the block's offset within its segment is strictly below
segsize - 2, so only the sync-path metadata flushes (the inode block and the
SSB, which takes the reserved block via `reserved_ssb_block` rather than
through a returned allocation) can occupy the last two blocks.  The second
conjunct is the skip itself: the skip loop (fs.c:1901-1912) only ever stops
at a segment boundary, outside the reserved window, or at the end of the
allocation region (where the allocator switches segments). -/
theorem lfs_alloc_data_avoids_reserved_window (sb : SB) (gcs : Option Nat)
    (st : LfsSt) (ty i o v b : Nat) (st' : LfsSt)
    (h4 : sb.segstart = 4) (h32 : sb.segsize = 32) (hsync : st.syncing = false)
    (h : lfs_alloc_core sb gcs st ty i o v = some (b, st')) :
    (b - 4) % 32 < 32 - 2 ∧
    (∀ t e, 4 ≤ t →
      (skipReserved sb sb.segsize t e - 4) % 32 = 0 ∨
      2 < 32 - (skipReserved sb sb.segsize t e - 4) % 32 ∨
      e ≤ skipReserved sb sb.segsize t e) := by
  refine ⟨?_, fun t e htt =>
    (skipReserved_spec sb h4 h32 sb.segsize t e htt (by rw [h32]; omega)).2⟩
  simp only [lfs_alloc_core, reserveSsbBlock, hsync, Bool.false_eq_true, if_false,
    h4, h32] at h
  split_ifs at h
  all_goals first
    | (exfalso; tauto)
    | (obtain ⟨hb, -, -⟩ := allocFinish_inv _ _ _ _ _ _ _ _ h
       subst hb
       try simp only [reserveSsbBlock]
       try dsimp only
       omega)
    | (have hoff := useFreeSegment_offset sb h4 h32 _ _ _ _ _ _ _ _ h
       omega)
/-- Witness for C5: from a log tail inside the reserved window (block 34,
offset 30) a data allocation skips to the next segment and returns block 36
(offset 0). -/
theorem lfs_alloc_data_avoids_reserved_window_witness :
    ((36 : Nat) - 4) % 32 < 32 - 2 ∧
    (lfs_alloc_core sbSmall none stWindow 1 1 0 0).map Prod.fst = some 36 :=
  ⟨(lfs_alloc_data_avoids_reserved_window sbSmall none stWindow 1 1 0 0 36 _
      rfl rfl rfl rfl).1, by decide⟩
theorem RingSutFrame.rfl (s : LfsSt) : RingSutFrame s s :=
  ⟨fun _ h => h, fun _ h => h⟩

theorem RingSutFrame.trans {a b c : LfsSt} (h1 : RingSutFrame a b)
    (h2 : RingSutFrame b c) : RingSutFrame a c :=
  ⟨fun f hf => h2.1 f (h1.1 f hf), fun i hi => h2.2 i (h1.2 i hi)⟩

/-- Setting a SUT entry to 0 cannot introduce the free marker. -/
theorem getD_set_zero_marker (l : List Nat) (j i : Nat)
    (h : (l.set j 0).getD i 0 = SUT_FREE_MARKER) :
    l.getD i 0 = SUT_FREE_MARKER := by
  rcases Nat.lt_or_ge i l.length with hi | hi
  · rw [List.getD_eq_getElem _ _ (by simpa using hi)] at h
    rcases eq_or_ne j i with rfl | hne
    · rw [List.getElem_set_self] at h
      exact absurd h (by decide)
    · rw [List.getElem_set_of_ne hne] at h
      rw [List.getD_eq_getElem _ _ hi]
      exact h
  · rw [List.getD_eq_default _ _ (by simpa using hi)] at h
    exact absurd h (by decide)
/-- Flushing the SSB buffer never pushes a segment on the free ring and never
marks a segment free in the SUT (it can only pop a segment and reset its
entry to 0). -/
theorem lfs_write_ssb_now_frame (sb : SB) (st : LfsSt) :
    RingSutFrame (lfs_write_ssb_now sb st).2 st := by
  unfold lfs_write_ssb_now
  split_ifs with h1 h2 h3 h4
  · exact RingSutFrame.rfl st
  · exact RingSutFrame.rfl st
  · exact ⟨fun f h => h, fun i h => h⟩
  · rcases hfs : st.free_segs with _ | ⟨f, rest⟩ <;> simp only [hfs]
    · exact RingSutFrame.rfl st
    · refine ⟨fun g hg => ?_, fun i hi => ?_⟩
      · rw [hfs]
        exact List.mem_cons_of_mem f hg
      · exact getD_set_zero_marker _ _ _ hi
  · exact ⟨fun f h => h, fun i h => h⟩

/-- The imap scan of an INODE entry preserves the ring/SUT frame, given that
each single inode-block relocation does. -/
theorem relocInodeGo_frame (sb : SB) (R : RelocFns) (lo hi : Nat)
    (hRI : ∀ s i b2, RingSutFrame (R.relocI s i b2).2 s) :
    ∀ inos done st, RingSutFrame (relocInodeGo sb R lo hi inos done st).2 st := by
  intro inos
  induction inos with
  | nil => intro done st; exact RingSutFrame.rfl st
  | cons ino rest ih =>
    intro done st
    simp only [relocInodeGo]
    split_ifs with hval hin
    · exact ih done st
    · rcases hR : R.relocI st ino (IMAP_BLOCK (st.imap.getD ino 0)) with ⟨ok, st'⟩
      have hfr : RingSutFrame st' st := by
        have := hRI st ino (IMAP_BLOCK (st.imap.getD ino 0))
        rwa [hR] at this
      cases ok <;> simp only [hR]
      · exact hfr
      · exact RingSutFrame.trans (ih _ st') hfr
    · exact ih done st

/-- Processing one SSB entry preserves the ring/SUT frame. -/
theorem gc_step_frame (sb : SB) (O : GcOracles) (R : RelocFns) (seg : Nat)
    (st : LfsSt) (e : SSBEntry)
    (hRB : ∀ s e2 a, RingSutFrame (R.relocB s e2 a).2 s)
    (hRI : ∀ s i b2, RingSutFrame (R.relocI s i b2).2 s) :
    RingSutFrame (gc_step sb O R seg st e).2 st := by
  unfold gc_step
  rcases h : gc_entry_decision sb O st seg e with _ | _ | a <;> simp only []
  · exact RingSutFrame.rfl st
  · exact relocInodeGo_frame sb R _ _ hRI _ _ st
  · exact hRB st e a

/-- The whole entry loop preserves the ring/SUT frame. -/
theorem gc_clean_entries_frame (sb : SB) (O : GcOracles) (R : RelocFns) (seg : Nat)
    (hRB : ∀ s e2 a, RingSutFrame (R.relocB s e2 a).2 s)
    (hRI : ∀ s i b2, RingSutFrame (R.relocI s i b2).2 s) :
    ∀ es st n, RingSutFrame (gc_clean_entries sb O R seg es st n).2 st := by
  intro es
  induction es with
  | nil => intro st n; exact RingSutFrame.rfl st
  | cons e rest ih =>
    intro st n
    simp only [gc_clean_entries]
    rcases hs : gc_step sb O R seg st e with ⟨ok, st'⟩
    have hfr : RingSutFrame st' st := by
      have := gc_step_frame sb O R seg st e hRB hRI
      rwa [hs] at this
    cases ok <;> simp only []
    · exact hfr
    · exact RingSutFrame.trans (ih st' _) hfr

/-- A victim whose cleaning stopped early only went through entry processing
and an SSB flush: the ring/SUT frame holds from entry to exit. -/
theorem gc_clean_segment_early_frame (sb : SB) (O : GcOracles) (R : RelocFns)
    (st : LfsSt) (seg : Nat) (es : List SSBEntry) (st2 : LfsSt)
    (hRB : ∀ s e2 a, RingSutFrame (R.relocB s e2 a).2 s)
    (hRI : ∀ s i b2, RingSutFrame (R.relocI s i b2).2 s)
    (h : gc_clean_segment sb O R st seg es = some (none, st2)) :
    RingSutFrame st2 st := by
  unfold gc_clean_segment at h
  rcases hce : gc_clean_entries sb O R seg es st 0 with ⟨res, st1⟩
  have hfr1 : RingSutFrame st1 st := by
    have := gc_clean_entries_frame sb O R seg hRB hRI es st 0
    rwa [hce] at this
  rw [hce] at h
  rcases res with _ | n
  · simp only [Option.some.injEq, Prod.mk.injEq] at h
    obtain ⟨-, rfl⟩ := h
    exact RingSutFrame.trans (lfs_write_ssb_now_frame sb st1) hfr1
  · exfalso
    revert h
    rcases hgf : gc_free_segment sb seg (lfs_write_ssb_now sb st1).2 with _ | st3 <;>
      simp [hgf]
/-- C7.  If a block relocation fails for lack of space while a victim is being
cleaned, `gc_clean_segment` stops at that entry (the loop in
`gc_clean_entries` processes nothing further, by construction), the victim is
not marked free - it is neither pushed on the free ring nor has its SUT entry
set to `SUT_FREE_MARKER`, at the end of the victim's cleaning and still after
the whole GC run - and `lfs_gc` leaves `gc_failed` set after the run
(fs.c:1623-1634, 1686-1715).  The relocation and sync oracles carry the
ring/SUT frame facts they satisfy in the source (see `RingSutFrame`). -/
theorem gc_out_of_space_aborts_victim (sb : SB) (O : GcOracles) (R : RelocFns)
    (sync : LfsSt → LfsSt) (st : LfsSt) (v : Nat) (es : List SSBEntry)
    (rest : List (Nat × List SSBEntry)) (stF st1 : LfsSt)
    (hRB : ∀ s e2 a, RingSutFrame (R.relocB s e2 a).2 s)
    (hRI : ∀ s i b2, RingSutFrame (R.relocI s i b2).2 s)
    (hsync : ∀ s, RingSutFrame (sync s) s)
    (hvfree : v ∉ st.free_segs)
    (hvm : st.sut_live.getD v 0 ≠ SUT_FREE_MARKER)
    (hfail : gc_clean_segment sb O R st v es = some (none, st1))
    (hrun : lfs_gc sb O R sync ((v, es) :: rest) st = some stF) :
    stF.gc_failed = true ∧ v ∉ stF.free_segs ∧
    stF.sut_live.getD v 0 ≠ SUT_FREE_MARKER ∧
    v ∉ st1.free_segs ∧ st1.sut_live.getD v 0 ≠ SUT_FREE_MARKER := by
  have hfr1 : RingSutFrame st1 st :=
    gc_clean_segment_early_frame sb O R st v es st1 hRB hRI hfail
  have h1 : v ∉ st1.free_segs := fun hm => hvfree (hfr1.1 v hm)
  have h2 : st1.sut_live.getD v 0 ≠ SUT_FREE_MARKER := fun hm => hvm (hfr1.2 v hm)
  unfold lfs_gc at hrun
  split_ifs at hrun with hc1 hc2
  all_goals first
    | (simp only [Option.some.injEq] at hrun
       subst hrun
       exact ⟨rfl, hvfree, hvm, h1, h2⟩)
    | (simp only [lfs_gc_loop, hfail] at hrun
       simp only [Option.some.injEq] at hrun
       subst hrun
       exact ⟨by simp, fun hm => h1 ((hsync st1).1 v hm),
         fun hm => h2 ((hsync st1).2 v hm), h1, h2⟩)
/-- Witness for C7: cleaning victim segment 1 with one live DATA entry whose
relocation fails leaves the victim off the free ring and unmarked, and the
GC run ends with `gc_failed` set. -/
theorem gc_out_of_space_aborts_victim_witness :
    stGcFailed.gc_failed = true ∧ 1 ∉ stGcFailed.free_segs ∧
    stGcFailed.sut_live.getD 1 0 ≠ SUT_FREE_MARKER ∧
    1 ∉ stImap33.free_segs ∧ stImap33.sut_live.getD 1 0 ≠ SUT_FREE_MARKER :=
  gc_out_of_space_aborts_victim sbSmall oraclesDirty36 relocFail id stImap33 1
    [⟨1, 1, 0, 2⟩] [] stGcFailed stImap33
    (fun _ _ _ => ⟨fun _ h => h, fun _ h => h⟩)
    (fun _ _ _ => ⟨fun _ h => h, fun _ h => h⟩)
    (fun _ => ⟨fun _ h => h, fun _ h => h⟩)
    (by decide) (by decide) rfl rfl
/-- Membership in the sorted insertion. -/
theorem mem_insertVictim (v w : Victim) :
    ∀ l : List Victim, w ∈ insertVictim v l ↔ w = v ∨ w ∈ l := by
  intro l
  induction l with
  | nil => simp [insertVictim]
  | cons x xs ih =>
    by_cases hlt : x.score < v.score
    · simp only [insertVictim, if_pos hlt, List.mem_cons]
      try tauto
    · simp only [insertVictim, if_neg hlt, List.mem_cons, ih]
      tauto

/-- Counting through the sorted insertion. -/
theorem countP_insertVictim (p : Victim → Bool) (v : Victim) :
    ∀ l : List Victim,
      (insertVictim v l).countP p = l.countP p + (if p v then 1 else 0) := by
  intro l
  induction l with
  | nil => simp [insertVictim, List.countP_cons]
  | cons x xs ih =>
    by_cases hlt : x.score < v.score
    · simp only [insertVictim, if_pos hlt, List.countP_cons]
      try omega
    · simp only [insertVictim, if_neg hlt, List.countP_cons, ih]
      omega

/-- Invariant preservation through a left fold. -/
theorem foldl_inv {α β : Type} (f : β → α → β) (P : β → Prop) (b : β)
    (hb : P b) (hf : ∀ b a, P b → P (f b a)) :
    ∀ l : List α, P (l.foldl f b) := by
  suffices h : ∀ (l : List α) (c : β), P c → P (l.foldl f c) from fun l => h l b hb
  intro l
  induction l with
  | nil => exact fun c hc => hc
  | cons a t ih => exact fun c hc => ih (f c a) (hf c a hc)
/-- Inserting a suitable victim preserves the selection invariant. -/
theorem SelInv_insert (sb : SB) (ticks cur : Nat) (sut : List SutE)
    (acc : List Victim) (i sc ut : Nat) (hP : SelInv sb ticks cur sut acc)
    (hcur : i ≠ cur) (hlive : (sut.getD i ⟨0, 0⟩).live ≠ SUT_FREE_MARKER)
    (hok : 0 < gc_cost_benefit sb.segsize ticks (sut.getD i ⟨0, 0⟩) ∨
      (acc = [] ∧ (sut.getD i ⟨0, 0⟩).live * 100 % U32 / (sb.segsize * BSIZE) < 100)) :
    SelInv sb ticks cur sut (insertVictim ⟨i, sc, ut⟩ acc) := by
  obtain ⟨hmem, hcount⟩ := hP
  constructor
  · intro w hw
    rcases (mem_insertVictim _ w acc).1 hw with rfl | hw
    · refine ⟨hcur, hlive, ?_⟩
      rcases hok with h | ⟨-, h⟩
      · exact Or.inl h
      · exact Or.inr h
    · exact hmem w hw
  · rw [countP_insertVictim]
    rcases hok with h | ⟨rfl, -⟩
    · have hne : ¬(gc_cost_benefit sb.segsize ticks (sut.getD i ⟨0, 0⟩) = 0) := by omega
      simp only [Victim.mk.injEq]
      rw [if_neg (by simpa using hne)]
      omega
    · simp only [List.countP_nil]
      split_ifs <;> omega

/-- Dropping the last victim preserves the selection invariant. -/
theorem SelInv_dropLast (sb : SB) (ticks cur : Nat) (sut : List SutE)
    (l : List Victim) (hP : SelInv sb ticks cur sut l) :
    SelInv sb ticks cur sut l.dropLast :=
  ⟨fun w hw => hP.1 w ((List.dropLast_sublist l).subset hw),
    le_trans (List.Sublist.countP_le _ (List.dropLast_sublist l)) hP.2⟩

/-- One scan step of victim selection preserves the invariant. -/
theorem gc_select_step_inv (sb : SB) (ticks cur maxv : Nat) (sut : List SutE)
    (acc : List Victim) (i : Nat) (hP : SelInv sb ticks cur sut acc) :
    SelInv sb ticks cur sut (gc_select_step sb ticks cur maxv sut acc i) := by
  simp only [gc_select_step]
  by_cases h1 : i = cur
  · simp only [if_pos h1]
    exact hP
  simp only [if_neg h1]
  by_cases h2 : (sut.getD i ⟨0, 0⟩).live = SUT_FREE_MARKER
  · simp only [if_pos h2]
    exact hP
  simp only [if_neg h2]
  by_cases h3 : acc.length = 0 ∧
      (sut.getD i ⟨0, 0⟩).live * 100 % U32 / (sb.segsize * BSIZE) < 100 ∧
      gc_cost_benefit sb.segsize ticks (sut.getD i ⟨0, 0⟩) = 0
  · simp only [if_pos h3]
    rw [if_neg (by decide : ¬(1 : Nat) = 0)]
    have hok : 0 < gc_cost_benefit sb.segsize ticks (sut.getD i ⟨0, 0⟩) ∨
        (acc = [] ∧
          (sut.getD i ⟨0, 0⟩).live * 100 % U32 / (sb.segsize * BSIZE) < 100) :=
      Or.inr ⟨List.length_eq_zero.1 h3.1, h3.2.1⟩
    by_cases h4 : acc.length < maxv
    · simp only [if_pos h4]
      exact SelInv_insert sb ticks cur sut acc i _ _ hP h1 h2 hok
    · simp only [if_neg h4]
      by_cases h5 : ((acc.getLast?.map Victim.score).getD 0) < 1
      · simp only [if_pos h5]
        exact SelInv_dropLast sb ticks cur sut _
          (SelInv_insert sb ticks cur sut acc i _ _ hP h1 h2 hok)
      · simp only [if_neg h5]
        exact hP
  · simp only [if_neg h3]
    by_cases h4 : gc_cost_benefit sb.segsize ticks (sut.getD i ⟨0, 0⟩) = 0
    · simp only [if_pos h4]
      exact hP
    · simp only [if_neg h4]
      have hok : 0 < gc_cost_benefit sb.segsize ticks (sut.getD i ⟨0, 0⟩) ∨
          (acc = [] ∧
            (sut.getD i ⟨0, 0⟩).live * 100 % U32 / (sb.segsize * BSIZE) < 100) :=
        Or.inl (Nat.pos_of_ne_zero h4)
      by_cases h5 : acc.length < maxv
      · simp only [if_pos h5]
        exact SelInv_insert sb ticks cur sut acc i _ _ hP h1 h2 hok
      · simp only [if_neg h5]
        by_cases h6 : ((acc.getLast?.map Victim.score).getD 0) <
            gc_cost_benefit sb.segsize ticks (sut.getD i ⟨0, 0⟩)
        · simp only [if_pos h6]
          exact SelInv_dropLast sb ticks cur sut _
            (SelInv_insert sb ticks cur sut acc i _ _ hP h1 h2 hok)
        · simp only [if_neg h6]
          exact hP
/-- Counterexample for C8 as stated.  With uptime ticks = 2^27 the 32-bit
product `(100 - u) * age_factor * 1000` of `gc_cost_benefit` (fs.c:551) wraps
to 0 for a never-touched empty segment (u = 0, age_factor = 2^27), so its
score is 0 although it is not full; desperation mode (fs.c:596-597) then
fires because no victim has been found *yet* in scan order - not because no
candidate anywhere has a positive score.  On `sutCex` segment 2 is a
non-current, non-free candidate with score 1000000 > 0, yet segment 1, whose
cost-benefit score is 0, is also selected.  This falsifies "whenever some
non-current, non-free segment has a positive score, every selected victim
has a positive score". -/
theorem gc_select_victims_desperation_counterexample :
    gc_select_victims sbSmall 134217728 0 8 sutCex =
      [⟨2, 1000000, 0⟩, ⟨1, 1, 0⟩] ∧
    0 < gc_cost_benefit 32 134217728 (sutCex.getD 2 ⟨0, 0⟩) ∧
    (2 : Nat) ≠ 0 ∧ (sutCex.getD 2 ⟨0, 0⟩).live ≠ SUT_FREE_MARKER ∧
    Victim.mk 1 1 0 ∈ gc_select_victims sbSmall 134217728 0 8 sutCex ∧
    gc_cost_benefit 32 134217728 (sutCex.getD 1 ⟨0, 0⟩) = 0 := by
  refine ⟨by decide, by decide, by decide, by decide, ?_, by decide⟩
  rw [(by decide : gc_select_victims sbSmall 134217728 0 8 sutCex =
    [⟨2, 1000000, 0⟩, ⟨1, 1, 0⟩])]
  decide

/-- C8 amended.  Every selected victim is a non-current, non-free segment,
and it either has a positive cost-benefit score or - for the desperation
pick, which exists only when the victim list is still empty at the time the
segment is scanned, so there is at most one such victim - its utilization is
below 100%.  (The claim's stronger reading, that a score-0 victim is taken
only when *no* candidate at all scores positive, fails: see the
counterexample.) -/
theorem gc_select_victims_positive_score (sb : SB) (ticks cur maxv : Nat)
    (sut : List SutE) :
    (∀ w ∈ gc_select_victims sb ticks cur maxv sut,
        w.seg ≠ cur ∧ (sut.getD w.seg ⟨0, 0⟩).live ≠ SUT_FREE_MARKER ∧
        (0 < gc_cost_benefit sb.segsize ticks (sut.getD w.seg ⟨0, 0⟩) ∨
          (sut.getD w.seg ⟨0, 0⟩).live * 100 % U32 / (sb.segsize * BSIZE) < 100)) ∧
    (gc_select_victims sb ticks cur maxv sut).countP
        (fun w => decide (gc_cost_benefit sb.segsize ticks (sut.getD w.seg ⟨0, 0⟩) = 0))
      ≤ 1 := by
  unfold gc_select_victims
  exact foldl_inv _ (SelInv sb ticks cur sut) []
    ⟨fun w hw => absurd hw (List.not_mem_nil w), by simp⟩
    (fun acc i hP => gc_select_step_inv sb ticks cur maxv sut acc i hP) _

/-- Witness for C8 (amended): on the counterexample input, the selected
victim segment 2 is indeed non-current, non-free, with positive score. -/
theorem gc_select_victims_positive_score_witness :
    (2 : Nat) ≠ 0 ∧ (sutCex.getD 2 ⟨0, 0⟩).live ≠ SUT_FREE_MARKER ∧
    (0 < gc_cost_benefit sbSmall.segsize 134217728 (sutCex.getD 2 ⟨0, 0⟩) ∨
      (sutCex.getD 2 ⟨0, 0⟩).live * 100 % U32 / (sbSmall.segsize * BSIZE) < 100) :=
  (gc_select_victims_positive_score sbSmall 134217728 0 8 sutCex).1
    ⟨2, 1000000, 0⟩ (by decide)
/-- The `readi` copy loop terminates with exactly the requested count when
all block addresses are in range: each round copies at least one byte. -/
theorem readi_loop_total (S : Nat) (addrOf : Nat → Nat) (n : Nat)
    (hv : ∀ bn, addrOf bn < S) :
    ∀ fuel tot off, tot ≤ n → n - tot ≤ fuel →
      readi_loop S addrOf n fuel tot off = some n := by
  intro fuel
  induction fuel with
  | zero =>
    intro tot off h1 h2
    have : tot = n := by omega
    subst this
    rfl
  | succ k ih =>
    intro tot off h1 h2
    simp only [readi_loop, BSIZE]
    split_ifs with hlt hS
    · exact absurd hS (by have := hv (off / 1024); omega)
    · have hm : off % 1024 < 1024 := Nat.mod_lt _ (by omega)
      have := ih (tot + min (n - tot) (1024 - off % 1024)) (off + min (n - tot) (1024 - off % 1024))
        (by omega) (by omega)
      simpa [BSIZE] using this
    · have : tot = n := by omega
      rw [this]
/-- C10.  For a non-device inode whose reachable block addresses are all in
range (the state every healthy inode satisfies; an out-of-range `bmap` result
is the corruption path at fs.c:2695-2698), `readi` returns -1 exactly when
the read starts past the end of the file or `off + n` wraps around 2^32
(fs.c:2688-2689); otherwise it returns `min n (ip.size - off)`, the exact
number of bytes its loop copies out.  In particular a read starting exactly
at `off = ip.size` returns 0, and the returned count never reaches past the
end of the file. -/
theorem readi_returns_clamped_count (S : Nat) (addrOf : Nat → Nat)
    (devResult : Int) (ip : Inode) (off n : Nat)
    (hdev : ip.type ≠ T_DEV) (hoff : off < U32) (hn : n < U32)
    (hv : ∀ bn, addrOf bn < S) :
    (readi S addrOf devResult ip off n = -1 ↔ (ip.size < off ∨ U32 ≤ off + n)) ∧
    (off ≤ ip.size → off + n < U32 →
      readi S addrOf devResult ip off n = (min n (ip.size - off) : Nat)) := by
  unfold readi
  rw [if_neg hdev]
  by_cases hc : ip.size < off ∨ (off + n) % U32 < off
  · rw [if_pos hc]
    have hcr : ip.size < off ∨ U32 ≤ off + n := by
      rcases hc with h | h
      · exact Or.inl h
      · right
        simp only [U32] at h hoff hn ⊢
        omega
    refine ⟨⟨fun _ => hcr, fun _ => rfl⟩, fun hle hnw => ?_⟩
    exfalso
    rcases hcr with h | h
    · omega
    · omega
  · rw [if_neg hc]
    push_neg at hc
    obtain ⟨hle, hwr⟩ := hc
    have hnw : off + n < U32 := by
      simp only [U32] at hwr hoff hn ⊢
      omega
    have hmod : (off + n) % U32 = off + n := Nat.mod_eq_of_lt hnw
    have hn1 : (if ip.size < off + n then ip.size - off else n) = min n (ip.size - off) := by
      split_ifs <;> omega
    simp only [hmod, hn1]
    rw [readi_loop_total S addrOf (min n (ip.size - off)) hv (min n (ip.size - off)) 0 off
      (by omega) (by omega)]
    refine ⟨⟨fun habs => ?_, fun h => ?_⟩, fun _ _ => rfl⟩
    · exfalso
      have : ((min n (ip.size - off) : Nat) : Int) = -1 := habs
      omega
    · exfalso
      rcases h with h | h
      · omega
      · omega
/-- Witness for C10: reading 800 bytes at offset 1000 of a 1500-byte file
returns 500 bytes. -/
theorem readi_returns_clamped_count_witness :
    readi 20000 (fun _ => 100) (-7) ipRead 1000 800 = ((min 800 (ipRead.size - 1000) : Nat) : Int) :=
  (readi_returns_clamped_count 20000 (fun _ => 100) (-7) ipRead 1000 800
    (by decide) (by decide) (by decide) (fun bn => by norm_num)).2 (by decide) (by decide)
/-- One full-block write at the last mappable logical block (MAXFILE - 1)
runs a single loop round through the indirect path and completes, writing at
least one block (the data block, plus the copied indirect block). -/
theorem writei_loop_last_block (S : Nat) (alloc : Nat → Nat) (indw : Nat → Nat → Nat)
    (ip : Inode) (k : Nat) (ws : List Nat) (fuel : Nat)
    (hind : ip.addrs.getD NDIRECT 0 < S) :
    (writei_loop S alloc indw BSIZE (fuel + 2) 0 ((MAXFILE - 1) * BSIZE) ip k ws).1 = true ∧
    ws.length <
      (writei_loop S alloc indw BSIZE (fuel + 2) 0 ((MAXFILE - 1) * BSIZE) ip k ws).2.2.2.length := by
  have hoff : (MAXFILE - 1) * BSIZE = 273408 := by norm_num [MAXFILE, NDIRECT, NINDIRECT, BSIZE]
  rw [hoff]
  simp only [writei_loop, BSIZE, NDIRECT]
  norm_num
  have hind2 : ip.addrs[12]?.getD 0 < S := by
    have h := hind
    simpa [NDIRECT, List.getD, List.get?_eq_getElem?] using h
  by_cases hp : ip.addrs[12]?.getD 0 = 0
  · simp [hp, List.length_append]
  · simp [hp, Nat.not_le.2 hind2, List.length_append]

/-- C9: For a non-device inode, a one-block write at file logical block
NDIRECT + NINDIRECT - 1, i.e. at byte offset (MAXFILE-1)*BSIZE, succeeds —
`writei` (fs.c:2713) returns the byte count BSIZE and emits at least one block
write — while any write whose range extends past MAXFILE*BSIZE bytes (i.e.
off + n > MAXFILE*BSIZE, where `bmap` at fs.c:2602 would be asked for logical
block NDIRECT + NINDIRECT or beyond) fails with -1 at the guard at
fs.c:2723-2726, leaving the inode untouched and writing nothing. -/
theorem writei_maxfile_boundary (S : Nat) (alloc : Nat → Nat) (indw : Nat → Nat → Nat)
    (devResult : Int) (ip : Inode) (hdev : ip.type ≠ T_DEV) :
    (∀ off n, off < U32 → n < U32 → MAXFILE * BSIZE < off + n →
      writei S alloc indw devResult ip off n = (-1, ip, [])) ∧
    ((MAXFILE - 1) * BSIZE ≤ ip.size → ip.addrs.getD NDIRECT 0 < S →
      (writei S alloc indw devResult ip ((MAXFILE - 1) * BSIZE) BSIZE).1 = (BSIZE : Int) ∧
      (writei S alloc indw devResult ip ((MAXFILE - 1) * BSIZE) BSIZE).2.2 ≠ []) := by
  constructor
  · intro off n hoff hn hgt
    unfold writei
    rw [if_neg hdev]
    by_cases hc : ip.size < off ∨ (off + n) % U32 < off
    · rw [if_pos hc]
    · rw [if_neg hc]
      push_neg at hc
      have hnw : off + n < U32 := by
        simp only [U32] at hoff hn hc ⊢
        omega
      rw [if_pos (by rw [Nat.mod_eq_of_lt hnw]; exact hgt)]
  · intro hsz hind
    unfold writei
    rw [if_neg hdev]
    have hb : (MAXFILE - 1) * BSIZE + BSIZE = MAXFILE * BSIZE := by
      norm_num [MAXFILE, NDIRECT, NINDIRECT, BSIZE]
    have hsmall : MAXFILE * BSIZE < U32 := by norm_num [MAXFILE, NDIRECT, NINDIRECT, BSIZE, U32]
    have hmod : ((MAXFILE - 1) * BSIZE + BSIZE) % U32 = (MAXFILE - 1) * BSIZE + BSIZE :=
      Nat.mod_eq_of_lt (by omega)
    rw [if_neg (by rw [hmod]; push_neg; exact ⟨by omega, by omega⟩)]
    rw [if_neg (by rw [hmod, hb]; omega)]
    have h := writei_loop_last_block S alloc indw ip 0 [] 1022 hind
    have hfe : (1022 + 2 : Nat) = BSIZE := by norm_num [BSIZE]
    rw [hfe] at h
    rcases hres : writei_loop S alloc indw BSIZE BSIZE 0 ((MAXFILE - 1) * BSIZE) ip 0 [] with
      ⟨ok, ip2, k2, ws2⟩
    rw [hres] at h
    rcases ok
    · simp at h
    · refine ⟨rfl, fun habs => ?_⟩
      rw [habs] at h
      simp at h

/-- Witness for C9: on the full inode `ipFull` (size MAXFILE*BSIZE, indirect
block 50), a 1-byte write starting at MAXFILE*BSIZE returns -1 with no state
change, and a BSIZE-byte write at offset (MAXFILE-1)*BSIZE returns BSIZE and
emits block writes. -/
theorem writei_maxfile_boundary_witness :
    writei 20000 (fun k => 5000 + k) (fun _ _ => 0) (-1) ipFull (MAXFILE * BSIZE) 1 =
      (-1, ipFull, []) ∧
    (writei 20000 (fun k => 5000 + k) (fun _ _ => 0) (-1) ipFull
        ((MAXFILE - 1) * BSIZE) BSIZE).1 = (BSIZE : Int) ∧
    (writei 20000 (fun k => 5000 + k) (fun _ _ => 0) (-1) ipFull
        ((MAXFILE - 1) * BSIZE) BSIZE).2.2 ≠ [] := by
  have h := writei_maxfile_boundary 20000 (fun k => 5000 + k) (fun _ _ => 0) (-1) ipFull
    (by decide)
  have hsz : (MAXFILE - 1) * BSIZE ≤ ipFull.size := by
    norm_num [ipFull, MAXFILE, NDIRECT, NINDIRECT, BSIZE]
  have hind : ipFull.addrs.getD NDIRECT 0 < 20000 := by decide
  refine ⟨h.1 (MAXFILE * BSIZE) 1
      (by norm_num [MAXFILE, NDIRECT, NINDIRECT, BSIZE, U32])
      (by norm_num [U32])
      (by norm_num [MAXFILE, NDIRECT, NINDIRECT, BSIZE]),
    (h.2 hsz hind).1, (h.2 hsz hind).2⟩
